import Mathlib

/-!
Verification development for the cron-expression schedule library
(`src/parsing.rs`, `src/queries.rs`).

The parser (`parsing.rs`) is embedded as deterministic functions over
`List Char`, mirroring the nom combinators used by the source.  The
next-occurrence query state machine (`queries.rs`) is embedded with explicit
state passing.  Components of the repository that are not part of the given
sources (`time_unit.rs`, `specifier.rs`, `error.rs`) are modelled from the
specification; each such definition carries a doc comment starting with
`Modelled from the spec:`.  The external chrono calendar is modelled by the
standard proleptic-Gregorian civil-day algorithms.
-/

namespace CronSchedule

/-- Modelled from the spec: error taxonomy (§7).  The source file
`parsing.rs` only ever constructs the `expression` kind (with a message);
the domain / name / range-order kinds arise inside the missing
`time_unit.rs` resolution code and are modelled from §7 of the spec. -/
inductive Error where
  | expression (msg : String)
  | domain (value lo hi : Nat)
  | nameError (name : String)
  | rangeOrder (lo hi : Nat)
  deriving DecidableEq

deriving instance DecidableEq for Except

/-- An ordinal is a non-negative integer (`u32` in the source). -/
abbrev Ordinal := Nat

/-- `OrdinalSet` from the source: a deduplicated, unordered set of ordinals. -/
abbrev OrdinalSet := Finset Ordinal

/-- `Specifier` from `specifier.rs` (declared by the spec §3 and used by
`parsing.rs`). -/
inductive Specifier where
  | All
  | Point (n : Ordinal)
  | Range (lo hi : Ordinal)
  | NamedRange (lo hi : String)
  deriving DecidableEq

/-- `RootSpecifier` from `specifier.rs` (declared by the spec §3 and used by
`parsing.rs`). -/
inductive RootSpecifier where
  | Specifier (s : Specifier)
  | Period (base : Specifier) (step : Ordinal)
  | NamedPoint (name : String)
  deriving DecidableEq

/-- `Field` from `parsing.rs`: the ordered list of root specifiers of one
whitespace-separated field. -/
structure Field where
  specifiers : List RootSpecifier
  deriving DecidableEq

/-- Modelled from the spec: a resolved time-unit value is either the unit's
full domain — produced "without enumerating every value structurally"
(§4.2 step 1, the single-`All` fast path and the `all()` constructors) — or
an explicitly resolved ordinal set. -/
inductive UnitValue where
  | all
  | set (s : OrdinalSet)
  deriving DecidableEq

/-- Modelled from the spec: the per-unit capability (§3, §4.2): inclusive
domain bounds and an optional case-insensitive name table.  `inclusive_max`
is `none` for the year unit, whose domain the spec leaves unbounded
("year unrestricted non-negative range", §6). -/
structure TimeUnit where
  inclusive_min : Nat
  inclusive_max : Option Nat
  name_to_ordinal : String → Option Ordinal

/-- Modelled from the spec: month name table (§4.2, §6 "names Jan–Dec",
case-insensitive, full names accepted). -/
def monthNameTable : String → Option Ordinal := fun s =>
  match s.toLower with
  | "jan" | "january" => some 1
  | "feb" | "february" => some 2
  | "mar" | "march" => some 3
  | "apr" | "april" => some 4
  | "may" => some 5
  | "jun" | "june" => some 6
  | "jul" | "july" => some 7
  | "aug" | "august" => some 8
  | "sep" | "september" => some 9
  | "oct" | "october" => some 10
  | "nov" | "november" => some 11
  | "dec" | "december" => some 12
  | _ => none

/-- Modelled from the spec: weekday name table (§4.2, §6 "names Sun–Sat",
Sunday=1 … Saturday=7, case-insensitive, full names accepted). -/
def dayOfWeekNameTable : String → Option Ordinal := fun s =>
  match s.toLower with
  | "sun" | "sunday" => some 1
  | "mon" | "monday" => some 2
  | "tue" | "tues" | "tuesday" => some 3
  | "wed" | "wednesday" => some 4
  | "thu" | "thur" | "thurs" | "thursday" => some 5
  | "fri" | "friday" => some 6
  | "sat" | "saturday" => some 7
  | _ => none

/-- Modelled from the spec: seconds domain 0–59 (§6); no name table. -/
def Seconds : TimeUnit := ⟨0, some 59, fun _ => none⟩

/-- Modelled from the spec: minutes domain 0–59 (§6); no name table. -/
def Minutes : TimeUnit := ⟨0, some 59, fun _ => none⟩

/-- Modelled from the spec: hours domain 0–23 (§6); no name table. -/
def Hours : TimeUnit := ⟨0, some 23, fun _ => none⟩

/-- Modelled from the spec: day-of-month domain 1–31 (§6); no name table. -/
def DaysOfMonth : TimeUnit := ⟨1, some 31, fun _ => none⟩

/-- Modelled from the spec: month domain 1–12 with the month name table
(§6). -/
def Months : TimeUnit := ⟨1, some 12, monthNameTable⟩

/-- Modelled from the spec: day-of-week domain 1–7 (Sun=1 … Sat=7) with the
weekday name table (§6). -/
def DaysOfWeek : TimeUnit := ⟨1, some 7, dayOfWeekNameTable⟩

/-- Modelled from the spec: the year unit; "unrestricted non-negative
range" (§6), so there is no inclusive maximum, and names never resolve
(only months and weekdays have name tables, §4.2). -/
def Years : TimeUnit := ⟨0, none, fun _ => none⟩

/-- The inclusive minimum of a unit (`TimeUnitField::inclusive_min`). -/
def TimeUnit.min (u : TimeUnit) : Nat := u.inclusive_min

/-- Modelled from the spec: domain validation (§4.2 step 3): an ordinal
outside the unit's bounds aborts resolution with a domain error naming the
offending value; the unbounded year unit accepts every non-negative
ordinal. -/
def TimeUnit.validate_ordinal (u : TimeUnit) (o : Ordinal) : Except Error Ordinal :=
  match u.inclusive_max with
  | none => Except.ok o
  | some hi =>
      if u.inclusive_min ≤ o ∧ o ≤ hi then Except.ok o
      else Except.error (Error.domain o u.inclusive_min hi)

/-- The ascending list of ordinals `lo, lo+step, lo+2*step, …` not
exceeding `hi` (the iteration order of the resolved `OrdinalSet`). -/
def steppedRange (lo hi step : Nat) : List Nat :=
  if step = 0 then [] else (List.range' lo ((hi + 1 - lo + step - 1) / step) step).filter (· ≤ hi)

/-- Modelled from the spec: resolution of a plain specifier (§4.2 step 2):
`Point(n) → {n}`; `Range(a,b) → {a..b}` with `a ≤ b` required (no
wraparound, §7 range-order error); `NamedRange` resolves both names through
the unit's name table and is then treated as a range; `All` resolves to the
full domain.  The spec gives the year unit no maximum, so an enumerating
resolution of `All` for years cannot be stated; no claim exercises it and
it is reported as a resolution failure. -/
def TimeUnit.ordinals_from_specifier (u : TimeUnit) : Specifier → Except Error (List Ordinal)
  | Specifier.All =>
      match u.inclusive_max with
      | none => Except.error (Error.expression "unit has no inclusive maximum")
      | some hi => Except.ok (steppedRange u.inclusive_min hi 1)
  | Specifier.Point n => Except.ok [n]
  | Specifier.Range lo hi =>
      if lo ≤ hi then Except.ok (steppedRange lo hi 1)
      else Except.error (Error.rangeOrder lo hi)
  | Specifier.NamedRange nlo nhi =>
      match u.name_to_ordinal nlo with
      | none => Except.error (Error.nameError nlo)
      | some lo =>
          match u.name_to_ordinal nhi with
          | none => Except.error (Error.nameError nhi)
          | some hi =>
              if lo ≤ hi then Except.ok (steppedRange lo hi 1)
              else Except.error (Error.rangeOrder lo hi)

/-- Modelled from the spec: resolution of a root specifier (§4.2 step 2):
a plain specifier resolves as above; `NamedPoint` resolves through the name
table; `Period(base, step)` starts at the base's resolved lower bound
(domain minimum when the base is `All`) and takes every `step`-th ordinal
up to the unit's domain maximum, inclusive. -/
def TimeUnit.ordinals_from_root_specifier (u : TimeUnit) :
    RootSpecifier → Except Error (List Ordinal)
  | RootSpecifier.Specifier s => u.ordinals_from_specifier s
  | RootSpecifier.NamedPoint n =>
      match u.name_to_ordinal n with
      | none => Except.error (Error.nameError n)
      | some o => Except.ok [o]
  | RootSpecifier.Period base step =>
      match u.inclusive_max with
      | none => Except.error (Error.expression "unit has no inclusive maximum")
      | some hi =>
          match base with
          | Specifier.All => Except.ok (steppedRange u.inclusive_min hi step)
          | Specifier.Point n => Except.ok (steppedRange n hi step)
          | Specifier.Range lo hi' =>
              if lo ≤ hi' then Except.ok (steppedRange lo hi step)
              else Except.error (Error.rangeOrder lo hi')
          | Specifier.NamedRange nlo nhi =>
              match u.name_to_ordinal nlo with
              | none => Except.error (Error.nameError nlo)
              | some lo =>
                  match u.name_to_ordinal nhi with
                  | none => Except.error (Error.nameError nhi)
                  | some hi' =>
                      if lo ≤ hi' then Except.ok (steppedRange lo hi step)
                      else Except.error (Error.rangeOrder lo hi')

/-- The inner loop of `FromField::from_field` (`parsing.rs:105-107`): each
resolved ordinal is validated and inserted into the accumulated set; the
first validation failure aborts. -/
def insertValidated (u : TimeUnit) : List Ordinal → OrdinalSet → Except Error OrdinalSet
  | [], acc => Except.ok acc
  | o :: os, acc =>
      match u.validate_ordinal o with
      | Except.error e => Except.error e
      | Except.ok v => insertValidated u os (insert v acc)

/-- The outer loop of `FromField::from_field` (`parsing.rs:103-108`): each
specifier of the field is resolved and its ordinals validated and
collected; the first failure aborts. -/
def collectSpecifiers (u : TimeUnit) : List RootSpecifier → OrdinalSet → Except Error OrdinalSet
  | [], acc => Except.ok acc
  | spec :: rest, acc =>
      match u.ordinals_from_root_specifier spec with
      | Except.error e => Except.error e
      | Except.ok specOrds =>
          match insertValidated u specOrds acc with
          | Except.error e => Except.error e
          | Except.ok acc2 => collectSpecifiers u rest acc2

/-- `FromField::from_field` (`parsing.rs:96-110`): a field that is exactly
the single specifier `All` short-circuits to the unit's full domain;
otherwise every specifier is resolved, every ordinal validated, and the
union returned. -/
def TimeUnit.from_field (u : TimeUnit) (f : Field) : Except Error UnitValue :=
  if f.specifiers = [RootSpecifier.Specifier Specifier.All] then
    Except.ok UnitValue.all
  else
    match collectSpecifiers u f.specifiers ∅ with
    | Except.error e => Except.error e
    | Except.ok ordinals => Except.ok (UnitValue.set ordinals)

/-- Modelled from the spec: `T::from_ordinal` used by the shorthand macros
(`parsing.rs:218` etc.): the unit value holding exactly the one ordinal. -/
def fromOrdinal (o : Ordinal) : UnitValue := UnitValue.set {o}

/-- `ScheduleFields` (§3): the seven resolved unit values. -/
structure ScheduleFields where
  seconds : UnitValue
  minutes : UnitValue
  hours : UnitValue
  days_of_month : UnitValue
  months : UnitValue
  days_of_week : UnitValue
  years : UnitValue
  deriving DecidableEq

/-- `Schedule` (§3): the original expression text paired with its resolved
fields. -/
structure Schedule where
  source : String
  fields : ScheduleFields
  deriving DecidableEq

/-- The resolution half of `ScheduleFields::from_field_list`
(`parsing.rs:54-75`): the six mandatory fields are resolved in order, the
optional seventh (years) defaults to `Years::all()`. -/
def resolveFieldList (s m h dom mon dow : Field) (y : Option Field) :
    Except Error ScheduleFields := do
  let seconds ← Seconds.from_field s
  let minutes ← Minutes.from_field m
  let hours ← Hours.from_field h
  let days_of_month ← DaysOfMonth.from_field dom
  let months ← Months.from_field mon
  let days_of_week ← DaysOfWeek.from_field dow
  let years ←
    match y with
    | some yf => Years.from_field yf
    | none => Except.ok UnitValue.all
  Except.ok ⟨seconds, minutes, hours, days_of_month, months, days_of_week, years⟩

/-- `ScheduleFields::from_field_list` (`parsing.rs:43-76`): a list with a
number of fields other than 6 or 7 is rejected with the field-count error;
otherwise the fields are resolved in order.  The final catch-all branch is
unreachable (the length guard admits only 6 or 7 elements, which the two
list patterns cover); it models the source's infallible iterator
unwraps. -/
def ScheduleFields.from_field_list (fields : List Field) : Except Error ScheduleFields :=
  let number_of_fields := fields.length
  if number_of_fields ≠ 6 ∧ number_of_fields ≠ 7 then
    Except.error (Error.expression
      ("Expression has " ++ toString number_of_fields ++
        " fields. Valid cron expressions have 6 or 7."))
  else
    match fields with
    | [s, m, h, dom, mon, dow] => resolveFieldList s m h dom mon dow none
    | [s, m, h, dom, mon, dow, y] => resolveFieldList s m h dom mon dow (some y)
    | _ => Except.error (Error.expression "unreachable")

/-! ## The nom grammar of `parsing.rs`

A parser is a function from the remaining input to `none` (nom `Err`) or
`some (rest, value)` (nom `Ok((rest, value))`).  All combinators used by
the source (`tag`, `digit1`, `alpha1`, `multispace0`, `alt`, `tuple`,
`opt`, `map`, `map_res`, `separated_list1`, `eof`, the `ws` wrapper) are
deterministic, so plain functions model them exactly. -/

abbrev P (α : Type) := List Char → Option (List Char × α)

/-- Sequencing of two parsers (how nom `tuple` threads the rest of the
input through its components). -/
def pseq (p : P α) (q : α → P β) : P β := fun input =>
  match p input with
  | none => none
  | some (rest, a) => q a rest

/-- nom `alt` of two parsers: the second runs on the original input only
when the first fails. -/
def alt2 (p q : P α) : P α := fun input =>
  match p input with
  | none => q input
  | some r => some r

/-- nom `tag`: consume exactly the given characters. -/
def tagP (t : List Char) : P Unit := fun input => go t input
where
  go : List Char → List Char → Option (List Char × Unit)
    | [], rest => some (rest, ())
    | _ :: _, [] => none
    | c :: cs, d :: ds => if c = d then go cs ds else none

/-- The longest prefix of the input satisfying `p`, and the rest. -/
def span (p : Char → Bool) : List Char → List Char × List Char
  | [] => ([], [])
  | c :: cs =>
      if p c then ((span p cs).1.cons c, (span p cs).2)
      else ([], c :: cs)

/-- nom `multispace0` character class: space, tab, carriage return and
line feed. -/
def isMultispace (c : Char) : Bool :=
  c = ' ' || c = '\t' || c = '\r' || c = '\n'

/-- nom `multispace0`: consume any amount of leading whitespace. -/
def multispace0 : P Unit := fun input => some ((span isMultispace input).2, ())

/-- nom `digit1`: one or more ASCII digits. -/
def digit1 : P (List Char) := fun input =>
  match span Char.isDigit input with
  | ([], _) => none
  | (ds, rest) => some (rest, ds)

/-- nom `alpha1`: one or more ASCII letters. -/
def alpha1 : P (List Char) := fun input =>
  match span Char.isAlpha input with
  | ([], _) => none
  | (ds, rest) => some (rest, ds)

/-- The `ws` combinator (`parsing.rs:21-28`): leading and trailing
whitespace around `inner` is consumed. -/
def wsP (inner : P α) : P α := fun input =>
  match inner (span isMultispace input).2 with
  | none => none
  | some (rest, a) => some ((span isMultispace rest).2, a)

/-- The numeric value of a digit string (how `u32::from_str` reads it). -/
def digitsToNat (ds : List Char) : Nat :=
  ds.foldl (fun n c => n * 10 + (c.toNat - 48)) 0

/-- `ordinal` (`parsing.rs:113-115`): a whitespace-trimmed digit string
read as a `u32`; `map_res` turns the overflow failure of `u32::from_str`
into a parse failure. -/
def ordinalP : P Ordinal := fun input =>
  match wsP digit1 input with
  | none => none
  | some (rest, ds) =>
      let n := digitsToNat ds
      if n < 4294967296 then some (rest, n) else none

/-- `name` (`parsing.rs:117-119`): a whitespace-trimmed alphabetic word. -/
def nameP : P String := fun input =>
  match wsP alpha1 input with
  | none => none
  | some (rest, cs) => some (rest, String.mk cs)

/-- `point` (`parsing.rs:121-123`). -/
def point : P Specifier := fun input =>
  match ordinalP input with
  | none => none
  | some (rest, n) => some (rest, Specifier.Point n)

/-- `named_point` (`parsing.rs:125-127`). -/
def named_point : P RootSpecifier := fun input =>
  match nameP input with
  | none => none
  | some (rest, n) => some (rest, RootSpecifier.NamedPoint n)

/-- `range` (`parsing.rs:143-148`). -/
def rangeP : P Specifier := fun input =>
  match ordinalP input with
  | none => none
  | some (r1, lo) =>
      match tagP ['-'] r1 with
      | none => none
      | some (r2, _) =>
          match ordinalP r2 with
          | none => none
          | some (r3, hi) => some (r3, Specifier.Range lo hi)

/-- `named_range` (`parsing.rs:150-154`). -/
def named_range : P Specifier := fun input =>
  match nameP input with
  | none => none
  | some (r1, lo) =>
      match tagP ['-'] r1 with
      | none => none
      | some (r2, _) =>
          match nameP r2 with
          | none => none
          | some (r3, hi) => some (r3, Specifier.NamedRange lo hi)

/-- `all` (`parsing.rs:156-158`). -/
def allP : P Specifier := fun input =>
  match tagP ['*'] input with
  | none => none
  | some (rest, _) => some (rest, Specifier.All)

/-- `any` (`parsing.rs:160-162`): the `?` marker, parsed to the same
`Specifier::All` value as the wildcard. -/
def anyP : P Specifier := fun input =>
  match tagP ['?'] input with
  | none => none
  | some (rest, _) => some (rest, Specifier.All)

/-- `specifier` (`parsing.rs:164-166`): `alt((all, range, point,
named_range))`. -/
def specifier : P Specifier :=
  alt2 allP (alt2 rangeP (alt2 point named_range))

/-- `specifier_with_any` (`parsing.rs:168-170`): `alt((any, specifier))`. -/
def specifier_with_any : P Specifier :=
  alt2 anyP specifier

/-- `period` (`parsing.rs:129-134`): `specifier "/" ordinal`. -/
def period : P RootSpecifier := fun input =>
  match specifier input with
  | none => none
  | some (r1, base) =>
      match tagP ['/'] r1 with
      | none => none
      | some (r2, _) =>
          match ordinalP r2 with
          | none => none
          | some (r3, step) => some (r3, RootSpecifier.Period base step)

/-- `period_with_any` (`parsing.rs:136-141`): `specifier_with_any "/"
ordinal`. -/
def period_with_any : P RootSpecifier := fun input =>
  match specifier_with_any input with
  | none => none
  | some (r1, base) =>
      match tagP ['/'] r1 with
      | none => none
      | some (r2, _) =>
          match ordinalP r2 with
          | none => none
          | some (r3, step) => some (r3, RootSpecifier.Period base step)

/-- `root_specifier` (`parsing.rs:172-178`). -/
def root_specifier : P RootSpecifier :=
  alt2 period
    (alt2 (fun input =>
      match specifier input with
      | none => none
      | some (rest, s) => some (rest, RootSpecifier.Specifier s))
      named_point)

/-- `root_specifier_with_any` (`parsing.rs:180-186`). -/
def root_specifier_with_any : P RootSpecifier :=
  alt2 period_with_any
    (alt2 (fun input =>
      match specifier_with_any input with
      | none => none
      | some (rest, s) => some (rest, RootSpecifier.Specifier s))
      named_point)

/-- The loop of nom `separated_list1`: repeatedly parse a `","` separator
followed by an item, stopping (and giving back the separator) at the first
failure.  The fuel is the length of the remaining input plus one; since the
separator always consumes one character, the loop can iterate at most
`input.length` times, so the fuel is never exhausted and the model is
exact. -/
def sepListLoop (item : P α) : Nat → List α → List Char → List Char × List α
  | 0, acc, input => (input, acc)
  | fuel + 1, acc, input =>
      match tagP [','] input with
      | none => (input, acc)
      | some (r1, _) =>
          match item r1 with
          | none => (input, acc)
          | some (r2, a) => sepListLoop item fuel (acc ++ [a]) r2

/-- nom `separated_list1(tag(","), item)`. -/
def separated_list1 (item : P α) : P (List α) := fun input =>
  match item input with
  | none => none
  | some (r1, a) =>
      let (rest, out) := sepListLoop item (r1.length + 1) [a] r1
      some (rest, out)

/-- `root_specifier_list` (`parsing.rs:188-193`). -/
def root_specifier_list : P (List RootSpecifier) :=
  wsP (alt2 (separated_list1 root_specifier)
    (fun input =>
      match root_specifier input with
      | none => none
      | some (rest, spec) => some (rest, [spec])))

/-- `root_specifier_list_with_any` (`parsing.rs:195-202`). -/
def root_specifier_list_with_any : P (List RootSpecifier) :=
  wsP (alt2 (separated_list1 root_specifier_with_any)
    (fun input =>
      match root_specifier_with_any input with
      | none => none
      | some (rest, spec) => some (rest, [spec])))

/-- `field` (`parsing.rs:204-206`). -/
def field : P Field := fun input =>
  match root_specifier_list input with
  | none => none
  | some (rest, specifiers) => some (rest, ⟨specifiers⟩)

/-- `field_with_any` (`parsing.rs:208-212`). -/
def field_with_any : P Field := fun input =>
  match root_specifier_list_with_any input with
  | none => none
  | some (rest, specifiers) => some (rest, ⟨specifiers⟩)

/-- nom `eof`: succeeds exactly on empty input. -/
def eofP : P Unit := fun input =>
  match input with
  | [] => some ([], ())
  | _ :: _ => none

/-- nom `opt`: always succeeds, consuming nothing on inner failure. -/
def optP (p : P α) : P (Option α) := fun input =>
  match p input with
  | none => some (input, none)
  | some (rest, a) => some (rest, some a)

/-- `shorthand_yearly` (`parsing.rs:215-227`): `@yearly` → the fields of
`0 0 0 1 1 * *`. -/
def shorthand_yearly : P ScheduleFields := fun input =>
  match tagP ("@yearly".toList) input with
  | none => none
  | some (rest, _) =>
      some (rest, ⟨fromOrdinal 0, fromOrdinal 0, fromOrdinal 0,
        fromOrdinal 1, fromOrdinal 1, UnitValue.all, UnitValue.all⟩)

/-- `shorthand_monthly` (`parsing.rs:230-242`): `@monthly` → the fields of
`0 0 0 1 * * *`. -/
def shorthand_monthly : P ScheduleFields := fun input =>
  match tagP ("@monthly".toList) input with
  | none => none
  | some (rest, _) =>
      some (rest, ⟨fromOrdinal 0, fromOrdinal 0, fromOrdinal 0,
        fromOrdinal 1, UnitValue.all, UnitValue.all, UnitValue.all⟩)

/-- `shorthand_weekly` (`parsing.rs:245-257`): `@weekly` → the fields of
`0 0 0 * * 1 *`. -/
def shorthand_weekly : P ScheduleFields := fun input =>
  match tagP ("@weekly".toList) input with
  | none => none
  | some (rest, _) =>
      some (rest, ⟨fromOrdinal 0, fromOrdinal 0, fromOrdinal 0,
        UnitValue.all, UnitValue.all, fromOrdinal 1, UnitValue.all⟩)

/-- `shorthand_daily` (`parsing.rs:260-272`): `@daily` → the fields of
`0 0 0 * * * *`. -/
def shorthand_daily : P ScheduleFields := fun input =>
  match tagP ("@daily".toList) input with
  | none => none
  | some (rest, _) =>
      some (rest, ⟨fromOrdinal 0, fromOrdinal 0, fromOrdinal 0,
        UnitValue.all, UnitValue.all, UnitValue.all, UnitValue.all⟩)

/-- `shorthand_hourly` (`parsing.rs:275-287`): `@hourly` → the fields of
`0 0 * * * * *`. -/
def shorthand_hourly : P ScheduleFields := fun input =>
  match tagP ("@hourly".toList) input with
  | none => none
  | some (rest, _) =>
      some (rest, ⟨fromOrdinal 0, fromOrdinal 0, UnitValue.all,
        UnitValue.all, UnitValue.all, UnitValue.all, UnitValue.all⟩)

/-- `shorthand` (`parsing.rs:289-303`): one of the five macros followed by
end of input. -/
def shorthand : P ScheduleFields :=
  pseq
    (alt2 shorthand_yearly (alt2 shorthand_monthly (alt2 shorthand_weekly
      (alt2 shorthand_daily shorthand_hourly))))
    (fun sf => pseq eofP (fun _ input => some (input, sf)))

/-- `longhand` (`parsing.rs:305-325`): six or seven whitespace-separated
fields (`?` admitted only at the day-of-month and day-of-week positions),
end of input, then resolution through `ScheduleFields::from_field_list`
(`map_res` turns a resolution error into a parse failure). -/
def longhand : P ScheduleFields :=
  pseq field (fun seconds =>
  pseq field (fun minutes =>
  pseq field (fun hours =>
  pseq field_with_any (fun days_of_month =>
  pseq field (fun months =>
  pseq field_with_any (fun days_of_week =>
  pseq (optP field) (fun years =>
  pseq eofP (fun _ input =>
    let fields := [seconds, minutes, hours, days_of_month, months, days_of_week] ++
      (match years with | some y => [y] | none => [])
    match ScheduleFields.from_field_list fields with
    | Except.error _ => none
    | Except.ok sf => some (input, sf)))))))))

/-- `schedule` (`parsing.rs:327-329`): `alt((shorthand, longhand))`. -/
def schedule : P ScheduleFields :=
  alt2 shorthand longhand

/-- `Schedule::from_str` (`parsing.rs:30-40`): run the `schedule` parser on
the whole expression; any parse failure becomes the one generic expression
error. -/
def Schedule.from_str (expression : String) : Except Error Schedule :=
  match schedule expression.toList with
  | some (_, schedule_fields) => Except.ok ⟨expression, schedule_fields⟩
  | none => Except.error (Error.expression "Invalid cron expression.")

/-! ## The external chrono calendar and `queries.rs`

The spec treats calendar arithmetic as an external collaborator (§1, §6):
the engine consumes an opaque UTC instant with field accessors.  The model
below represents a `DateTime<Utc>` by its Unix timestamp (seconds and
nanoseconds) and computes the field accessors with the standard
proleptic-Gregorian civil-day algorithms, which is what chrono
implements. -/

/-- Model of a chrono `DateTime<Utc>` at second precision: seconds since
the Unix epoch plus the sub-second nanoseconds. -/
structure ChronoDateTime where
  secs : Int
  nsecs : Nat
  deriving DecidableEq

/-- Proleptic-Gregorian date of a day count (days since 1970-01-01):
`(year, month, day)`. -/
def civilFromDays (z : Int) : Int × Nat × Nat :=
  let z' := z + 719468
  let era := Int.fdiv z' 146097
  let doe := (z' - era * 146097).toNat
  let yoe := (doe - doe / 1460 + doe / 36524 - doe / 146096) / 365
  let doy := doe - (365 * yoe + yoe / 4 - yoe / 100)
  let mp := (5 * doy + 2) / 153
  let d := doy - (153 * mp + 2) / 5 + 1
  let m := if mp < 10 then mp + 3 else mp - 9
  ((yoe : Int) + era * 400 + (if m ≤ 2 then 1 else 0), m, d)

/-- Day count (days since 1970-01-01) of a proleptic-Gregorian date. -/
def daysFromCivil (y : Int) (m d : Nat) : Int :=
  let y' := if m ≤ 2 then y - 1 else y
  let era := Int.fdiv y' 400
  let yoe := (y' - era * 400).toNat
  let mp := if 3 ≤ m then m - 3 else m + 9
  let doy := (153 * mp + 2) / 5 + d - 1
  let doe := yoe * 365 + yoe / 4 - yoe / 100 + doy
  era * 146097 + (doe : Int) - 719468

/-- The day count of a datetime (`div_euclid(86400)` in chrono). -/
def ChronoDateTime.dayCount (dt : ChronoDateTime) : Int :=
  Int.ediv dt.secs 86400

/-- The second within the day (`rem_euclid(86400)` in chrono). -/
def ChronoDateTime.secondOfDay (dt : ChronoDateTime) : Nat :=
  (Int.emod dt.secs 86400).toNat

/-- chrono `Datelike::year` (an `i32`). -/
def ChronoDateTime.year (dt : ChronoDateTime) : Int :=
  (civilFromDays dt.dayCount).1

/-- chrono `Datelike::month` (1–12). -/
def ChronoDateTime.month (dt : ChronoDateTime) : Nat :=
  (civilFromDays dt.dayCount).2.1

/-- chrono `Datelike::day` (1–31). -/
def ChronoDateTime.day (dt : ChronoDateTime) : Nat :=
  (civilFromDays dt.dayCount).2.2

/-- chrono `Timelike::hour` (0–23). -/
def ChronoDateTime.hour (dt : ChronoDateTime) : Nat :=
  dt.secondOfDay / 3600

/-- chrono `Timelike::minute` (0–59). -/
def ChronoDateTime.minute (dt : ChronoDateTime) : Nat :=
  dt.secondOfDay % 3600 / 60

/-- chrono `Timelike::second` (0–59). -/
def ChronoDateTime.second (dt : ChronoDateTime) : Nat :=
  dt.secondOfDay % 60

/-- The largest timestamp chrono can represent: the last second of the
last representable day (`NaiveDate::MAX` is 262143-12-31, the maximum year
being `i32::MAX >> 13`).  Its exact value matters to no theorem below —
every timestamp reachable from a `u64` nanosecond count stays below the
year 2555. -/
def chronoMaxTimestamp : Int :=
  daysFromCivil 262143 12 31 * 86400 + 86399

/-- The smallest timestamp chrono can represent: the first second of the
first representable day (`NaiveDate::MIN` is -262144-01-01, the minimum
year being `i32::MIN >> 13`). -/
def chronoMinTimestamp : Int :=
  daysFromCivil (-262144) 1 1 * 86400

/-- Model of chrono `NaiveDateTime::from_timestamp_opt` (composed with
`DateTime::from_naive_utc_and_offset`, which never fails): `Some` exactly
when the seconds lie in the representable range and the nanoseconds are a
valid sub-second (leap-second) count. -/
def from_timestamp_opt (secs : Int) (nsecs : Nat) : Option ChronoDateTime :=
  if chronoMinTimestamp ≤ secs ∧ secs ≤ chronoMaxTimestamp ∧ nsecs < 2000000000 then
    some ⟨secs, nsecs⟩
  else none

/-- The Rust `as i64` cast of a `u64` value. -/
def i64ofU64 (n : Nat) : Int :=
  if n < 2 ^ 63 then (n : Int) else (n : Int) - 2 ^ 64

/-- The Rust `as u32` cast of an `i32` value. -/
def u32ofI32 (y : Int) : Nat :=
  (Int.emod y (2 ^ 32)).toNat

/-- `NANOS` (`queries.rs:6`).  The name notwithstanding, its value is
`1_000_000`. -/
def NANOS : Nat := 1000000

/-- `SECONDS` (`queries.rs:7`). -/
def SECONDS : Nat := 1000

/-- `NextAfterQuery` (`queries.rs:9-16`): the normalized reference instant
plus one first-pass flag per wrapping field. -/
structure NextAfterQuery where
  initial_datetime : ChronoDateTime
  first_month : Bool
  first_day_of_month : Bool
  first_hour : Bool
  first_minute : Bool
  first_second : Bool
  deriving DecidableEq

namespace NextAfterQuery

/-- `NextAfterQuery::from` (`queries.rs:19-34`): truncate the `u64`
nanosecond reference to a whole second, advance by one second, and convert
to a datetime.  The source unwraps the conversion; `none` models the panic
of `.unwrap()` on an out-of-range timestamp. -/
def «from» (after : Nat) : Option NextAfterQuery :=
  let rem := after % NANOS
  let secs := (after - rem) / (NANOS * SECONDS) + 1
  match from_timestamp_opt (i64ofU64 secs) 0 with
  | none => none
  | some initial_datetime => some ⟨initial_datetime, true, true, true, true, true⟩

/-- `year_lower_bound` (`queries.rs:36-39`): no first-pass flag; always the
reference year (cast `as u32`). -/
def year_lower_bound (q : NextAfterQuery) : Ordinal :=
  u32ofI32 q.initial_datetime.year

/-- `month_lower_bound` (`queries.rs:41-47`), with the mutation made
explicit in the returned state. -/
def month_lower_bound (q : NextAfterQuery) : Ordinal × NextAfterQuery :=
  if q.first_month then (q.initial_datetime.month, { q with first_month := false })
  else (Months.inclusive_min, q)

/-- `day_of_month_lower_bound` (`queries.rs:54-60`). -/
def day_of_month_lower_bound (q : NextAfterQuery) : Ordinal × NextAfterQuery :=
  if q.first_day_of_month then (q.initial_datetime.day, { q with first_day_of_month := false })
  else (DaysOfMonth.inclusive_min, q)

/-- `hour_lower_bound` (`queries.rs:67-73`). -/
def hour_lower_bound (q : NextAfterQuery) : Ordinal × NextAfterQuery :=
  if q.first_hour then (q.initial_datetime.hour, { q with first_hour := false })
  else (Hours.inclusive_min, q)

/-- `minute_lower_bound` (`queries.rs:80-86`). -/
def minute_lower_bound (q : NextAfterQuery) : Ordinal × NextAfterQuery :=
  if q.first_minute then (q.initial_datetime.minute, { q with first_minute := false })
  else (Minutes.inclusive_min, q)

/-- `second_lower_bound` (`queries.rs:93-99`). -/
def second_lower_bound (q : NextAfterQuery) : Ordinal × NextAfterQuery :=
  if q.first_second then (q.initial_datetime.second, { q with first_second := false })
  else (Seconds.inclusive_min, q)

/-- `reset_second` (`queries.rs:101-103`). -/
def reset_second (q : NextAfterQuery) : NextAfterQuery :=
  { q with first_second := false }

/-- `reset_minute` (`queries.rs:88-91`): clears its own flag, then cascades
to `reset_second`. -/
def reset_minute (q : NextAfterQuery) : NextAfterQuery :=
  reset_second { q with first_minute := false }

/-- `reset_hour` (`queries.rs:75-78`). -/
def reset_hour (q : NextAfterQuery) : NextAfterQuery :=
  reset_minute { q with first_hour := false }

/-- `reset_day_of_month` (`queries.rs:62-65`). -/
def reset_day_of_month (q : NextAfterQuery) : NextAfterQuery :=
  reset_hour { q with first_day_of_month := false }

/-- `reset_month` (`queries.rs:49-52`). -/
def reset_month (q : NextAfterQuery) : NextAfterQuery :=
  reset_day_of_month { q with first_month := false }

end NextAfterQuery

/-- One public operation on a `NextAfterQuery`, for quantifying over
arbitrary call sequences. -/
inductive QueryOp where
  | yearLB
  | monthLB
  | dayOfMonthLB
  | hourLB
  | minuteLB
  | secondLB
  | resetMonth
  | resetDayOfMonth
  | resetHour
  | resetMinute
  | resetSecond
  deriving DecidableEq

/-- The state after one operation (lower-bound calls keep only their state
effect; `year_lower_bound` takes `&self` and changes nothing). -/
def applyOp (q : NextAfterQuery) : QueryOp → NextAfterQuery
  | QueryOp.yearLB => q
  | QueryOp.monthLB => (q.month_lower_bound).2
  | QueryOp.dayOfMonthLB => (q.day_of_month_lower_bound).2
  | QueryOp.hourLB => (q.hour_lower_bound).2
  | QueryOp.minuteLB => (q.minute_lower_bound).2
  | QueryOp.secondLB => (q.second_lower_bound).2
  | QueryOp.resetMonth => q.reset_month
  | QueryOp.resetDayOfMonth => q.reset_day_of_month
  | QueryOp.resetHour => q.reset_hour
  | QueryOp.resetMinute => q.reset_minute
  | QueryOp.resetSecond => q.reset_second

/-- The state after a sequence of operations. -/
def applyOps (q : NextAfterQuery) (ops : List QueryOp) : NextAfterQuery :=
  ops.foldl applyOp q

/-! ## Helper lemmas -/

/-- Successful validation returns the validated ordinal itself. -/
theorem validate_ordinal_ok_self {u : TimeUnit} {o v : Ordinal}
    (h : u.validate_ordinal o = Except.ok v) : v = o := by
  unfold TimeUnit.validate_ordinal at h
  split at h
  · exact (Except.ok.inj h).symm
  · split at h
    · exact (Except.ok.inj h).symm
    · exact Except.noConfusion h

/-- Every member of a set built by `insertValidated` was either already in
the accumulator or passed validation. -/
theorem insertValidated_ok {u : TimeUnit} :
    ∀ (os : List Ordinal) (acc s : OrdinalSet),
      insertValidated u os acc = Except.ok s →
      (∀ o ∈ acc, u.validate_ordinal o = Except.ok o) →
      ∀ o ∈ s, u.validate_ordinal o = Except.ok o := by
  intro os
  induction os with
  | nil =>
      intro acc s h hacc
      unfold insertValidated at h
      cases h
      exact hacc
  | cons o os ih =>
      intro acc s h hacc
      unfold insertValidated at h
      split at h
      · exact Except.noConfusion h
      · rename_i v hv
        have hvo : v = o := validate_ordinal_ok_self hv
        rw [hvo] at hv h
        refine ih (insert o acc) s h ?_
        intro x hx
        rcases Finset.mem_insert.mp hx with rfl | hx
        · exact hv
        · exact hacc x hx

/-- Every member of a set built by `collectSpecifiers` was either already
in the accumulator or passed validation. -/
theorem collectSpecifiers_ok {u : TimeUnit} :
    ∀ (specs : List RootSpecifier) (acc s : OrdinalSet),
      collectSpecifiers u specs acc = Except.ok s →
      (∀ o ∈ acc, u.validate_ordinal o = Except.ok o) →
      ∀ o ∈ s, u.validate_ordinal o = Except.ok o := by
  intro specs
  induction specs with
  | nil =>
      intro acc s h hacc
      unfold collectSpecifiers at h
      cases h
      exact hacc
  | cons spec rest ih =>
      intro acc s h hacc
      unfold collectSpecifiers at h
      split at h
      · exact Except.noConfusion h
      · rename_i specOrds hres
        split at h
        · exact Except.noConfusion h
        · rename_i acc2 hins
          exact ih acc2 s h (insertValidated_ok specOrds acc acc2 hins hacc)

/-- Unfolding a successful `pseq`. -/
theorem pseq_some {α β : Type} {p : P α} {q : α → P β} {input : List Char}
    {z : List Char × β} (h : pseq p q input = some z) :
    ∃ r a, p input = some (r, a) ∧ q a r = some z := by
  unfold pseq at h
  split at h
  · exact Option.noConfusion h
  · rename_i r a heq
    exact ⟨r, a, heq, h⟩

/-- `eof` leaves an empty rest behind. -/
theorem eofP_rest {input rest : List Char} {u : Unit}
    (h : eofP input = some (rest, u)) : rest = [] := by
  unfold eofP at h
  split at h
  · exact ((Prod.mk.inj (Option.some.inj h)).1).symm
  · exact Option.noConfusion h

/-- A successful `longhand` parse consumes the entire input. -/
theorem longhand_rest {input rest : List Char} {f : ScheduleFields}
    (h : longhand input = some (rest, f)) : rest = [] := by
  unfold longhand at h
  obtain ⟨r1, _, _, h⟩ := pseq_some h
  obtain ⟨r2, _, _, h⟩ := pseq_some h
  obtain ⟨r3, _, _, h⟩ := pseq_some h
  obtain ⟨r4, _, _, h⟩ := pseq_some h
  obtain ⟨r5, _, _, h⟩ := pseq_some h
  obtain ⟨r6, _, _, h⟩ := pseq_some h
  obtain ⟨r7, _, _, h⟩ := pseq_some h
  obtain ⟨r8, _, he, h⟩ := pseq_some h
  have h8 : r8 = [] := eofP_rest he
  dsimp only at h
  split at h
  · exact Option.noConfusion h
  · rw [← h8, ((Prod.mk.inj (Option.some.inj h)).1).symm]

/-- A successful `shorthand` parse consumes the entire input. -/
theorem shorthand_rest {input rest : List Char} {f : ScheduleFields}
    (h : shorthand input = some (rest, f)) : rest = [] := by
  unfold shorthand at h
  obtain ⟨r1, _, _, h⟩ := pseq_some h
  obtain ⟨r2, _, he, h⟩ := pseq_some h
  have h2 : r2 = [] := eofP_rest he
  rw [← h2, ((Prod.mk.inj (Option.some.inj h)).1).symm]

/-- A successful `schedule` parse consumes the entire input. -/
theorem schedule_rest {input rest : List Char} {f : ScheduleFields}
    (h : schedule input = some (rest, f)) : rest = [] := by
  unfold schedule alt2 at h
  split at h
  · exact longhand_rest h
  · rename_i r heq
    have hr : r = (rest, f) := Option.some.inj h
    rw [hr] at heq
    exact shorthand_rest heq

/-- The state after one operation keeps the stored initial datetime. -/
theorem applyOp_initial (q : NextAfterQuery) (op : QueryOp) :
    (applyOp q op).initial_datetime = q.initial_datetime := by
  rcases q with ⟨dt, m, d, h, mi, s⟩
  cases op <;> cases m <;> cases d <;> cases h <;> cases mi <;> cases s <;> rfl

/-- The state after a sequence of operations keeps the stored initial
datetime. -/
theorem applyOps_initial (ops : List QueryOp) :
    ∀ q : NextAfterQuery, (applyOps q ops).initial_datetime = q.initial_datetime := by
  induction ops with
  | nil => intro q; rfl
  | cons op ops ih =>
      intro q
      have : applyOps q (op :: ops) = applyOps (applyOp q op) ops := rfl
      rw [this, ih, applyOp_initial]

/-- No operation ever raises a cleared `first_month` flag. -/
theorem applyOp_first_month (q : NextAfterQuery) (op : QueryOp)
    (h : q.first_month = false) : (applyOp q op).first_month = false := by
  rcases q with ⟨dt, m, d, hh, mi, s⟩
  cases h
  cases op <;> cases d <;> cases hh <;> cases mi <;> cases s <;> rfl

/-- No operation ever raises a cleared `first_day_of_month` flag. -/
theorem applyOp_first_day_of_month (q : NextAfterQuery) (op : QueryOp)
    (h : q.first_day_of_month = false) : (applyOp q op).first_day_of_month = false := by
  rcases q with ⟨dt, m, d, hh, mi, s⟩
  cases h
  cases op <;> cases m <;> cases hh <;> cases mi <;> cases s <;> rfl

/-- No operation ever raises a cleared `first_hour` flag. -/
theorem applyOp_first_hour (q : NextAfterQuery) (op : QueryOp)
    (h : q.first_hour = false) : (applyOp q op).first_hour = false := by
  rcases q with ⟨dt, m, d, hh, mi, s⟩
  cases h
  cases op <;> cases m <;> cases d <;> cases mi <;> cases s <;> rfl

/-- No operation ever raises a cleared `first_minute` flag. -/
theorem applyOp_first_minute (q : NextAfterQuery) (op : QueryOp)
    (h : q.first_minute = false) : (applyOp q op).first_minute = false := by
  rcases q with ⟨dt, m, d, hh, mi, s⟩
  cases h
  cases op <;> cases m <;> cases d <;> cases hh <;> cases s <;> rfl

/-- No operation ever raises a cleared `first_second` flag. -/
theorem applyOp_first_second (q : NextAfterQuery) (op : QueryOp)
    (h : q.first_second = false) : (applyOp q op).first_second = false := by
  rcases q with ⟨dt, m, d, hh, mi, s⟩
  cases h
  cases op <;> cases m <;> cases d <;> cases hh <;> cases mi <;> rfl

/-- Flag-clearing persists through any sequence of operations. -/
theorem applyOps_first_month (ops : List QueryOp) :
    ∀ q : NextAfterQuery, q.first_month = false →
      (applyOps q ops).first_month = false := by
  induction ops with
  | nil => intro q h; exact h
  | cons op ops ih => intro q h; exact ih (applyOp q op) (applyOp_first_month q op h)

/-- Flag-clearing persists through any sequence of operations. -/
theorem applyOps_first_day_of_month (ops : List QueryOp) :
    ∀ q : NextAfterQuery, q.first_day_of_month = false →
      (applyOps q ops).first_day_of_month = false := by
  induction ops with
  | nil => intro q h; exact h
  | cons op ops ih => intro q h; exact ih (applyOp q op) (applyOp_first_day_of_month q op h)

/-- Flag-clearing persists through any sequence of operations. -/
theorem applyOps_first_hour (ops : List QueryOp) :
    ∀ q : NextAfterQuery, q.first_hour = false →
      (applyOps q ops).first_hour = false := by
  induction ops with
  | nil => intro q h; exact h
  | cons op ops ih => intro q h; exact ih (applyOp q op) (applyOp_first_hour q op h)

/-- Flag-clearing persists through any sequence of operations. -/
theorem applyOps_first_minute (ops : List QueryOp) :
    ∀ q : NextAfterQuery, q.first_minute = false →
      (applyOps q ops).first_minute = false := by
  induction ops with
  | nil => intro q h; exact h
  | cons op ops ih => intro q h; exact ih (applyOp q op) (applyOp_first_minute q op h)

/-- Flag-clearing persists through any sequence of operations. -/
theorem applyOps_first_second (ops : List QueryOp) :
    ∀ q : NextAfterQuery, q.first_second = false →
      (applyOps q ops).first_second = false := by
  induction ops with
  | nil => intro q h; exact h
  | cons op ops ih => intro q h; exact ih (applyOp q op) (applyOp_first_second q op h)

/-- The lower bound of a field whose first-pass flag is cleared is the
unit's domain minimum. -/
theorem month_lower_bound_min {q : NextAfterQuery} (h : q.first_month = false) :
    (q.month_lower_bound).1 = Months.inclusive_min := by
  unfold NextAfterQuery.month_lower_bound
  rw [h]
  rfl

/-- The lower bound of a field whose first-pass flag is cleared is the
unit's domain minimum. -/
theorem day_of_month_lower_bound_min {q : NextAfterQuery}
    (h : q.first_day_of_month = false) :
    (q.day_of_month_lower_bound).1 = DaysOfMonth.inclusive_min := by
  unfold NextAfterQuery.day_of_month_lower_bound
  rw [h]
  rfl

/-- The lower bound of a field whose first-pass flag is cleared is the
unit's domain minimum. -/
theorem hour_lower_bound_min {q : NextAfterQuery} (h : q.first_hour = false) :
    (q.hour_lower_bound).1 = Hours.inclusive_min := by
  unfold NextAfterQuery.hour_lower_bound
  rw [h]
  rfl

/-- The lower bound of a field whose first-pass flag is cleared is the
unit's domain minimum. -/
theorem minute_lower_bound_min {q : NextAfterQuery} (h : q.first_minute = false) :
    (q.minute_lower_bound).1 = Minutes.inclusive_min := by
  unfold NextAfterQuery.minute_lower_bound
  rw [h]
  rfl

/-- The lower bound of a field whose first-pass flag is cleared is the
unit's domain minimum. -/
theorem second_lower_bound_min {q : NextAfterQuery} (h : q.first_second = false) :
    (q.second_lower_bound).1 = Seconds.inclusive_min := by
  unfold NextAfterQuery.second_lower_bound
  rw [h]
  rfl

/-- An in-range timestamp converts successfully. -/
theorem from_timestamp_opt_in_range (secs : Int) (h1 : chronoMinTimestamp ≤ secs)
    (h2 : secs ≤ chronoMaxTimestamp) : from_timestamp_opt secs 0 = some ⟨secs, 0⟩ := by
  unfold from_timestamp_opt
  rw [if_pos]
  exact ⟨h1, h2, by norm_num⟩

/-- What `NextAfterQuery::from` computes on any `u64` reference: exactly
one second past the truncated reference, all flags raised. -/
theorem from_eq_of_lt (after : Nat) (h : after < 2 ^ 64) :
    NextAfterQuery.«from» after =
      some ⟨⟨((after / 1000000000 : Nat) : Int) + 1, 0⟩, true, true, true, true, true⟩ := by
  have hsecs : (after - after % NANOS) / (NANOS * SECONDS) = after / 1000000000 := by
    have h1 : after - after % NANOS = NANOS * (after / NANOS) := by
      have := Nat.div_add_mod after NANOS
      omega
    rw [h1, Nat.mul_div_mul_left _ _ (by norm_num [NANOS] : 0 < NANOS),
      Nat.div_div_eq_div_mul]
    norm_num [NANOS, SECONDS]
  have hle : after / 1000000000 ≤ 18446744073 := by
    calc after / 1000000000 ≤ (2 ^ 64 - 1) / 1000000000 :=
          Nat.div_le_div_right (by omega)
      _ = 18446744073 := by norm_num
  have hcast : i64ofU64 (after / 1000000000 + 1) = ((after / 1000000000 : Nat) : Int) + 1 := by
    unfold i64ofU64
    rw [if_pos (by omega)]
    push_cast
    ring
  have hmin : chronoMinTimestamp ≤ ((after / 1000000000 : Nat) : Int) + 1 := by
    calc chronoMinTimestamp ≤ 0 := by decide
      _ ≤ ((after / 1000000000 : Nat) : Int) + 1 := by positivity
  have hmax : ((after / 1000000000 : Nat) : Int) + 1 ≤ chronoMaxTimestamp := by
    calc ((after / 1000000000 : Nat) : Int) + 1 ≤ 18446744074 := by
          have : ((after / 1000000000 : Nat) : Int) ≤ 18446744073 := by exact_mod_cast hle
          omega
      _ ≤ chronoMaxTimestamp := by decide
  unfold NextAfterQuery.«from»
  dsimp only
  rw [hsecs, hcast, from_timestamp_opt_in_range _ hmin hmax]

/-! ## Claims -/

/-- C1: the no-specific-value marker `?` is treated identically to the
wildcard `*` at parse time: `"* * * ? * ?"` and `"* * * * * *"` parse to
the same `ScheduleFields`, with the day-of-month and day-of-week fields
both resolved to the unrestricted full-domain value. -/
theorem claim1_any_marker_equals_wildcard :
    Schedule.from_str "* * * ? * ?" = Except.ok ⟨"* * * ? * ?",
      ⟨UnitValue.all, UnitValue.all, UnitValue.all, UnitValue.all,
        UnitValue.all, UnitValue.all, UnitValue.all⟩⟩ ∧
    Schedule.from_str "* * * * * *" = Except.ok ⟨"* * * * * *",
      ⟨UnitValue.all, UnitValue.all, UnitValue.all, UnitValue.all,
        UnitValue.all, UnitValue.all, UnitValue.all⟩⟩ ∧
    (Schedule.from_str "* * * ? * ?").map Schedule.fields =
      (Schedule.from_str "* * * * * *").map Schedule.fields := by
  refine ⟨by decide, by decide, by decide⟩

/-- C6 counterexample: a 4-field expression is rejected, but not with the
field-count error: `Schedule::from_str` surfaces the generic expression
error, which differs from the field-count error
`ScheduleFields::from_field_list` produces for a 4-element list. -/
theorem claim6_counterexample_four_fields_generic_error :
    Schedule.from_str "* * * *" = Except.error (Error.expression "Invalid cron expression.") ∧
    ScheduleFields.from_field_list (List.replicate 4 ⟨[RootSpecifier.Specifier Specifier.All]⟩) =
      Except.error (Error.expression
        "Expression has 4 fields. Valid cron expressions have 6 or 7.") ∧
    Error.expression "Invalid cron expression." ≠
      Error.expression "Expression has 4 fields. Valid cron expressions have 6 or 7." := by
  refine ⟨by decide, by decide, by decide⟩

/-- C6 (amended): an expression with a number of fields other than 6 or 7
is rejected, but through `Schedule::from_str` the rejection is the generic
syntax error (the longhand tuple fails before `from_field_list` runs, and
`from_str` collapses every parse failure into the one generic error); the
field-count error of the taxonomy is produced by
`ScheduleFields::from_field_list` itself whenever it is handed a list with
a number of fields other than 6 or 7. -/
theorem claim6_field_count :
    (∀ fields : List Field, fields.length ≠ 6 → fields.length ≠ 7 →
      ScheduleFields.from_field_list fields = Except.error (Error.expression
        ("Expression has " ++ toString fields.length ++
          " fields. Valid cron expressions have 6 or 7."))) ∧
    Schedule.from_str "* * * *" =
      Except.error (Error.expression "Invalid cron expression.") := by
  constructor
  · intro fields h6 h7
    unfold ScheduleFields.from_field_list
    rw [if_pos ⟨h6, h7⟩]
  · decide

/-- C6 witness: the empty field list is rejected with the field-count
error, and the concrete 4-field expression with the generic error. -/
theorem claim6_field_count_witness :
    ScheduleFields.from_field_list [] = Except.error (Error.expression
      "Expression has 0 fields. Valid cron expressions have 6 or 7.") ∧
    Schedule.from_str "* * * *" =
      Except.error (Error.expression "Invalid cron expression.") :=
  ⟨claim6_field_count.1 [] (by decide) (by decide), claim6_field_count.2⟩

/-- C7: resolution validates every resolved ordinal against the unit's
domain (every ordinal in a successfully resolved set passes
`validate_ordinal`), and an out-of-range ordinal aborts construction with
a domain error: the seconds field `0-65` resolves to a domain error, and
parsing `"0-65 * * * * *"` yields no `Schedule`. -/
theorem claim7_domain_validation :
    (∀ (u : TimeUnit) (f : Field) (s : OrdinalSet),
      u.from_field f = Except.ok (UnitValue.set s) →
      ∀ o ∈ s, u.validate_ordinal o = Except.ok o) ∧
    field ("0-65".toList) =
      some ([], ⟨[RootSpecifier.Specifier (Specifier.Range 0 65)]⟩) ∧
    Seconds.from_field ⟨[RootSpecifier.Specifier (Specifier.Range 0 65)]⟩ =
      Except.error (Error.domain 60 0 59) ∧
    Schedule.from_str "0-65 * * * * *" =
      Except.error (Error.expression "Invalid cron expression.") := by
  refine ⟨?_, by decide, by decide, by decide⟩
  intro u f s h o ho
  unfold TimeUnit.from_field at h
  split at h
  · exact UnitValue.noConfusion (Except.ok.inj h)
  · split at h
    · exact Except.noConfusion h
    · rename_i ords hc
      have hs : ords = s := UnitValue.set.inj (Except.ok.inj h)
      rw [hs] at hc
      exact collectSpecifiers_ok f.specifiers ∅ s hc (by intro x hx; cases hx) o ho

/-- C7 witness: a concrete successfully resolved seconds field, every
member of which passes validation. -/
theorem claim7_domain_validation_witness :
    Seconds.validate_ordinal 3 = Except.ok 3 ∧
    Seconds.from_field ⟨[RootSpecifier.Specifier (Specifier.Point 3)]⟩ =
      Except.ok (UnitValue.set {3}) :=
  ⟨claim7_domain_validation.1 Seconds ⟨[RootSpecifier.Specifier (Specifier.Point 3)]⟩ {3}
      (by decide) 3 (by decide),
    by decide⟩

/-- C9: `@weekly` expands to the fixed canonical fields of
`0 0 0 * * 1 *` (seconds, minutes, hours fixed to 0, day-of-month and
month unrestricted, day-of-week `{1}`, years unrestricted), and a macro
followed by any extra characters is not accepted as a shorthand. -/
theorem claim9_weekly_shorthand :
    schedule ("@weekly".toList) =
      some ([], ⟨UnitValue.set {0}, UnitValue.set {0}, UnitValue.set {0},
        UnitValue.all, UnitValue.all, UnitValue.set {1}, UnitValue.all⟩) ∧
    schedule ("0 0 0 * * 1 *".toList) =
      some ([], ⟨UnitValue.set {0}, UnitValue.set {0}, UnitValue.set {0},
        UnitValue.all, UnitValue.all, UnitValue.set {1}, UnitValue.all⟩) ∧
    ∀ cs : List Char, cs ≠ [] → shorthand ("@weekly".toList ++ cs) = none := by
  refine ⟨by decide, by decide, ?_⟩
  intro cs h
  cases cs with
  | nil => exact absurd rfl h
  | cons c cs' => rfl

/-- C9 witness: a trailing space after `@weekly` defeats the shorthand. -/
theorem claim9_weekly_shorthand_witness :
    shorthand ("@weekly".toList ++ [' ']) = none :=
  claim9_weekly_shorthand.2.2 [' '] (by decide)

/-- C2: for each of the month, day-of-month, hour, minute and second
fields of a freshly constructed `NextAfterQuery`, the first lower-bound
call returns the normalized reference instant's value for that field, and
every later call — after any sequence of further operations, including one
starting with the corresponding reset — returns the field's domain
minimum. -/
theorem claim2_first_pass_lower_bounds (after : Nat) (q : NextAfterQuery)
    (hlt : after < 2 ^ 64) (h : NextAfterQuery.«from» after = some q) :
    ((q.month_lower_bound).1 = q.initial_datetime.month ∧
      (∀ ops, ((applyOps (q.month_lower_bound).2 ops).month_lower_bound).1 =
        Months.inclusive_min) ∧
      (∀ ops, ((applyOps q.reset_month ops).month_lower_bound).1 =
        Months.inclusive_min)) ∧
    ((q.day_of_month_lower_bound).1 = q.initial_datetime.day ∧
      (∀ ops, ((applyOps (q.day_of_month_lower_bound).2 ops).day_of_month_lower_bound).1 =
        DaysOfMonth.inclusive_min) ∧
      (∀ ops, ((applyOps q.reset_day_of_month ops).day_of_month_lower_bound).1 =
        DaysOfMonth.inclusive_min)) ∧
    ((q.hour_lower_bound).1 = q.initial_datetime.hour ∧
      (∀ ops, ((applyOps (q.hour_lower_bound).2 ops).hour_lower_bound).1 =
        Hours.inclusive_min) ∧
      (∀ ops, ((applyOps q.reset_hour ops).hour_lower_bound).1 =
        Hours.inclusive_min)) ∧
    ((q.minute_lower_bound).1 = q.initial_datetime.minute ∧
      (∀ ops, ((applyOps (q.minute_lower_bound).2 ops).minute_lower_bound).1 =
        Minutes.inclusive_min) ∧
      (∀ ops, ((applyOps q.reset_minute ops).minute_lower_bound).1 =
        Minutes.inclusive_min)) ∧
    ((q.second_lower_bound).1 = q.initial_datetime.second ∧
      (∀ ops, ((applyOps (q.second_lower_bound).2 ops).second_lower_bound).1 =
        Seconds.inclusive_min) ∧
      (∀ ops, ((applyOps q.reset_second ops).second_lower_bound).1 =
        Seconds.inclusive_min)) := by
  rw [from_eq_of_lt after hlt] at h
  have hq := (Option.some.inj h).symm
  subst hq
  refine ⟨⟨rfl, ?_, ?_⟩, ⟨rfl, ?_, ?_⟩, ⟨rfl, ?_, ?_⟩, ⟨rfl, ?_, ?_⟩, ⟨rfl, ?_, ?_⟩⟩ <;>
    intro ops
  · exact month_lower_bound_min (applyOps_first_month ops _ rfl)
  · exact month_lower_bound_min (applyOps_first_month ops _ rfl)
  · exact day_of_month_lower_bound_min (applyOps_first_day_of_month ops _ rfl)
  · exact day_of_month_lower_bound_min (applyOps_first_day_of_month ops _ rfl)
  · exact hour_lower_bound_min (applyOps_first_hour ops _ rfl)
  · exact hour_lower_bound_min (applyOps_first_hour ops _ rfl)
  · exact minute_lower_bound_min (applyOps_first_minute ops _ rfl)
  · exact minute_lower_bound_min (applyOps_first_minute ops _ rfl)
  · exact second_lower_bound_min (applyOps_first_second ops _ rfl)
  · exact second_lower_bound_min (applyOps_first_second ops _ rfl)

/-- C2 witness: the query built from reference 0 (normalized instant
1970-01-01T00:00:01): the first month lower bound is the instant's month
and a later call after a reset yields the domain minimum. -/
theorem claim2_first_pass_lower_bounds_witness :
    ((⟨⟨1, 0⟩, true, true, true, true, true⟩ : NextAfterQuery).month_lower_bound).1 =
      ChronoDateTime.month ⟨1, 0⟩ ∧
    ((applyOps ((⟨⟨1, 0⟩, true, true, true, true, true⟩ : NextAfterQuery).month_lower_bound).2
        [QueryOp.resetMonth]).month_lower_bound).1 = Months.inclusive_min :=
  have hc := claim2_first_pass_lower_bounds 0 ⟨⟨1, 0⟩, true, true, true, true, true⟩
    (by norm_num) (by decide)
  ⟨hc.1.1, hc.1.2.1 [QueryOp.resetMonth]⟩

/-- C3: each reset clears the first-pass flag of its own field and of
every less-significant field, leaving the more-significant flags and the
stored initial datetime unchanged; the year lower bound carries no flag
and returns the stored instant's year after any sequence of operations. -/
theorem claim3_reset_cascade (q : NextAfterQuery) :
    q.reset_month = ⟨q.initial_datetime, false, false, false, false, false⟩ ∧
    q.reset_day_of_month =
      ⟨q.initial_datetime, q.first_month, false, false, false, false⟩ ∧
    q.reset_hour =
      ⟨q.initial_datetime, q.first_month, q.first_day_of_month, false, false, false⟩ ∧
    q.reset_minute =
      ⟨q.initial_datetime, q.first_month, q.first_day_of_month, q.first_hour,
        false, false⟩ ∧
    q.reset_second =
      ⟨q.initial_datetime, q.first_month, q.first_day_of_month, q.first_hour,
        q.first_minute, false⟩ ∧
    ∀ ops : List QueryOp,
      (applyOps q ops).year_lower_bound = u32ofI32 q.initial_datetime.year := by
  rcases q with ⟨dt, m, d, hh, mi, s⟩
  refine ⟨rfl, rfl, rfl, rfl, rfl, ?_⟩
  intro ops
  unfold NextAfterQuery.year_lower_bound
  rw [applyOps_initial]

/-- C4: `NextAfterQuery::from` stores the instant one whole second past
the truncated reference — `floor(after / 10^9) + 1` seconds, zero
sub-second — which is strictly greater than the `after` reference even on
a second boundary. -/
theorem claim4_normalization (after : Nat) (h : after < 2 ^ 64) :
    NextAfterQuery.«from» after =
      some ⟨⟨((after / 1000000000 : Nat) : Int) + 1, 0⟩, true, true, true, true, true⟩ ∧
    after < (after / 1000000000 + 1) * 1000000000 := by
  refine ⟨from_eq_of_lt after h, ?_⟩
  omega

/-- C4 witness: reference 0 (a second boundary) is normalized to one full
second, strictly past the reference. -/
theorem claim4_normalization_witness :
    (0 : Nat) < 2 ^ 64 ∧
    (NextAfterQuery.«from» 0 =
      some ⟨⟨((0 / 1000000000 : Nat) : Int) + 1, 0⟩, true, true, true, true, true⟩ ∧
      0 < (0 / 1000000000 + 1) * 1000000000) :=
  ⟨by norm_num, claim4_normalization 0 (by norm_num)⟩

/-- C5: the `?` marker is accepted only in the day-of-month and
day-of-week positions.  The plain `field` parser (used at the seconds,
minutes, hours, month and year positions) rejects any field text starting
with `?` — whether alone or as a period base — so a `?` expression in the
seconds position (and, concretely, in each other disallowed position)
fails to parse, while `?` in either permitted position parses. -/
theorem claim5_any_only_in_day_fields :
    (∀ cs : List Char, field ('?' :: cs) = none) ∧
    (∀ cs : List Char, Schedule.from_str (String.mk ('?' :: cs)) =
      Except.error (Error.expression "Invalid cron expression.")) ∧
    Schedule.from_str "* ? * * * *" =
      Except.error (Error.expression "Invalid cron expression.") ∧
    Schedule.from_str "* * ? * * *" =
      Except.error (Error.expression "Invalid cron expression.") ∧
    Schedule.from_str "* * * * ? *" =
      Except.error (Error.expression "Invalid cron expression.") ∧
    Schedule.from_str "* * * * * * ?" =
      Except.error (Error.expression "Invalid cron expression.") ∧
    Schedule.from_str "?/2 * * * * *" =
      Except.error (Error.expression "Invalid cron expression.") ∧
    (Schedule.from_str "* * * ? * *").isOk = true ∧
    (Schedule.from_str "* * * * * ?").isOk = true ∧
    (Schedule.from_str "* * * ?/2 * ?").isOk = true := by
  exact ⟨fun cs => rfl, fun cs => rfl, by decide, by decide, by decide, by decide,
    by decide, by decide, by decide, by decide⟩

/-- C8: parsing is all-or-nothing over the whole input: `from_str`
succeeds exactly when the grammar consumes the entire expression (a
successful `schedule` parse always has an empty rest), and the concrete
expression with trailing characters fails. -/
theorem claim8_whole_input_consumed :
    (∀ s : String, (∃ sch, Schedule.from_str s = Except.ok sch) ↔
      ∃ f, schedule s.toList = some ([], f)) ∧
    (∀ (input rest : List Char) (f : ScheduleFields),
      schedule input = some (rest, f) → rest = []) ∧
    Schedule.from_str "* * * * * *foo" =
      Except.error (Error.expression "Invalid cron expression.") := by
  refine ⟨?_, fun input rest f h => schedule_rest h, by decide⟩
  intro s
  constructor
  · rintro ⟨sch, hsch⟩
    unfold Schedule.from_str at hsch
    split at hsch
    · rename_i r f0 heq
      have hrest : r = [] := schedule_rest heq
      rw [hrest] at heq
      exact ⟨f0, heq⟩
    · exact Except.noConfusion hsch
  · rintro ⟨f, hf⟩
    refine ⟨⟨s, f⟩, ?_⟩
    unfold Schedule.from_str
    rw [hf]

/-- C8 witness: a fully consumed expression parses, and the empty rest of
the concrete successful parse is confirmed through the theorem. -/
theorem claim8_whole_input_consumed_witness :
    (∃ sch, Schedule.from_str "* * * * * *" = Except.ok sch) ∧ ([] : List Char) = [] :=
  ⟨(claim8_whole_input_consumed.1 "* * * * * *").mpr
      ⟨⟨UnitValue.all, UnitValue.all, UnitValue.all, UnitValue.all, UnitValue.all,
        UnitValue.all, UnitValue.all⟩, by decide⟩,
    claim8_whole_input_consumed.2.1 ("* * * * * *".toList) []
      ⟨UnitValue.all, UnitValue.all, UnitValue.all, UnitValue.all, UnitValue.all,
        UnitValue.all, UnitValue.all⟩ (by decide)⟩

/-- C10 counterexample: even the largest `u64` reference converts
successfully — the truncated-and-advanced second count of every `u64`
nanosecond timestamp lies within the representable datetime range, so the
unconditional unwrap in `NextAfterQuery::from` never observes `None` and
construction never panics. -/
theorem claim10_counterexample_max_input_returns :
    (NextAfterQuery.«from» 18446744073709551615).isSome = true := by decide

/-- C10 (amended): `NextAfterQuery::from` unconditionally unwraps the
datetime conversion, but the conversion succeeds for every `u64` input
(`floor(after / 10^9) + 1` stays far below the representable maximum), so
the constructor is total over its `u64` domain and returns normally on
every input. -/
theorem claim10_total_on_u64 (after : Nat) (h : after < 2 ^ 64) :
    (NextAfterQuery.«from» after).isSome = true := by
  rw [from_eq_of_lt after h]
  rfl

/-- C10 witness: a concrete in-range reference constructs normally. -/
theorem claim10_total_on_u64_witness :
    (123456789 : Nat) < 2 ^ 64 ∧
    (NextAfterQuery.«from» 123456789).isSome = true :=
  ⟨by norm_num, claim10_total_on_u64 123456789 (by norm_num)⟩

end CronSchedule
